import Mathlib

/-!
Shallow embedding of the `motivation` quote-reminder application.

The app persists everything in AsyncStorage, a flat string-keyed store whose
values are JSON-serialized data.  Since `JSON.parse (JSON.stringify v) = v`
for the plain data this app stores, we represent a stored value by its parsed
content (`JsVal`) rather than by its JSON text.  The store itself is an
association list built only through `setItem`, mirroring AsyncStorage.

Sources embedded here:
  - `database/quotesDb.js` (bundled in src/context/ThemeContext.js):
    `saveQuotes`, `getQuotes`, `getFavorites`, `addFavorite`, `removeFavorite`
  - `database/userDb.js` (src/unnamed/part_006): `saveUser`
  - `src/utils/BackupService.js`: `createBackup`, `restoreBackup`
  - `src/utils/fetchQuotesFromAPI.js`: `mergeQuotes`
  - `src/screens/ReminderScreen.js`: `scheduleAllNotifications` (current
    revision, tracking notification ids)
  - `src/unnamed/part_000`: `scheduleAllNotifications` (older revision,
    discarding notification ids and cancelling wholesale)
-/

namespace Motivation

/-- Quote record as stored under `QUOTES_DATA`: `{id, text, author, category}`.
JS object fields may be absent, so `author` and `category` are `Option`. -/
structure Quote where
  id : String
  text : String
  author : Option String
  category : Option String
deriving DecidableEq, Repr

/-- User record as built by SignupScreen and stored by `saveUser`. -/
structure UserRec where
  email : String
  password : String
  name : String
  bio : String
deriving DecidableEq, Repr

/-- Wall-clock reminder time, the `getHours`/`getMinutes` projection of the
JS `Date` objects kept in the `times` array. -/
structure Time where
  hour : Nat
  minute : Nat
deriving DecidableEq, Repr

/-- Parsed content of an AsyncStorage value.  Each constructor covers one
shape of JSON this app writes: raw strings (`currentUser`), string arrays
(preferences), quote arrays (`QUOTES_DATA`, `favorites_<email>`), user
objects (`user_<email>`), date arrays (`reminderTimes`) and notification-id
arrays. -/
inductive JsVal where
  | str : String → JsVal
  | strList : List String → JsVal
  | quoteList : List Quote → JsVal
  | user : UserRec → JsVal
  | timeList : List Time → JsVal
  | natList : List Nat → JsVal
deriving DecidableEq, Repr

/-- AsyncStorage contents: an association list of key-value pairs.  Keys are
unique in any store reachable through `setItem` from the empty store. -/
abbrev Store := List (String × JsVal)

/-- AsyncStorage.getItem: the value at the first matching key, if any. -/
def getItem (s : Store) (k : String) : Option JsVal :=
  (s.find? (fun kv => kv.1 = k)).map (fun kv => kv.2)

/-- AsyncStorage.setItem: replace the value at an existing key in place, or
append a fresh pair. -/
def setItem : Store → String → JsVal → Store
  | [], k, v => [(k, v)]
  | kv :: rest, k, v =>
    if kv.1 = k then (k, v) :: rest else kv :: setItem rest k v

/-- AsyncStorage.getAllKeys. -/
def getAllKeys (s : Store) : List String :=
  s.map (fun kv => kv.1)

/-- AsyncStorage.multiGet: pair each requested key with its current value
(`none` models the `null` AsyncStorage returns for a missing key). -/
def multiGet (s : Store) (ks : List String) : List (String × Option JsVal) :=
  ks.map (fun k => (k, getItem s k))

/-- Object.fromEntries over string-keyed pairs: later duplicates win, which
`setItem` realizes by overwriting in place. -/
def fromEntries (l : List (String × JsVal)) : Store :=
  l.foldl (fun acc kv => setItem acc kv.1 kv.2) []

/-! ### quotesDb.js -/

def QUOTES_KEY : String := "QUOTES_DATA"

/-- quotesDb.saveQuotes: `AsyncStorage.setItem(QUOTES_KEY, JSON.stringify(arr))`. -/
def saveQuotes (s : Store) (quotesArray : List Quote) : Store :=
  setItem s QUOTES_KEY (JsVal.quoteList quotesArray)

/-- quotesDb.getQuotes: parse the value under `QUOTES_KEY`, returning `[]`
when the key is absent.  A value of another shape cannot be produced by this
app under `QUOTES_KEY`; it is read as `[]`. -/
def getQuotes (s : Store) : List Quote :=
  match getItem s QUOTES_KEY with
  | some (JsVal.quoteList l) => l
  | _ => []

/-- Key of a user's favorites list: `favorites_${email}`. -/
def favKey (email : String) : String :=
  "favorites_" ++ email

/-- quotesDb.getFavorites: parse `favorites_${email}`, `[]` when absent. -/
def getFavorites (s : Store) (email : String) : List Quote :=
  match getItem s (favKey email) with
  | some (JsVal.quoteList l) => l
  | _ => []

/-- quotesDb.addFavorite: append the quote unless some stored favorite
already carries its id, in which case nothing is written. -/
def addFavorite (s : Store) (email : String) (quote : Quote) : Store :=
  let currentFavorites := getFavorites s email
  if currentFavorites.any (fun q => q.id = quote.id) then s
  else setItem s (favKey email) (JsVal.quoteList (currentFavorites ++ [quote]))

/-- quotesDb.removeFavorite: write back the favorites with every entry of the
given id filtered out. -/
def removeFavorite (s : Store) (email : String) (quoteId : String) : Store :=
  let currentFavorites := getFavorites s email
  setItem s (favKey email)
    (JsVal.quoteList (currentFavorites.filter (fun q => q.id ≠ quoteId)))

/-! ### userDb.js -/

def CURRENT_USER_KEY : String := "currentUser"

/-- Key of a user profile: `user_${email}`. -/
def userKey (email : String) : String :=
  "user_" ++ email

/-- userDb.saveUser: requires a truthy email (a JS exception is thrown and
caught otherwise, leaving the store untouched), then writes the profile under
`user_${email}` and the email under `currentUser`. -/
def saveUser (s : Store) (user : UserRec) : Store :=
  if user.email = "" then s
  else setItem (setItem s (userKey user.email) (JsVal.user user))
    CURRENT_USER_KEY (JsVal.str user.email)

/-! ### JS string builtins -/

/-- JS `String.prototype.trim`: strip leading and trailing whitespace. -/
def jsTrim (s : String) : String :=
  String.mk
    (((s.data.dropWhile Char.isWhitespace).reverse.dropWhile
      Char.isWhitespace).reverse)

/-- JS `String.prototype.toLowerCase` (for the characters this app stores it
agrees with per-character lowercasing). -/
def jsToLower (s : String) : String :=
  String.mk (s.data.map Char.toLower)

/-! ### fetchQuotesFromAPI.js -/

/-- fetchQuotesFromAPI.mergeQuotes: append to the existing quotes exactly
those new quotes whose trimmed text is not among the trimmed texts of the
existing quotes, then save. -/
def mergeQuotes (s : Store) (newQuotes : List Quote) : Store :=
  let existing := getQuotes s
  let seenTexts := existing.map (fun q => jsTrim q.text)
  let uniqueNew := newQuotes.filter (fun q => ¬ seenTexts.contains (jsTrim q.text))
  saveQuotes s (existing ++ uniqueNew)

/-! ### BackupService.js -/

/-- World visible to BackupService: the store plus the contents of
`backup.json` (absent, or a parsed JSON object mapping keys to the raw values
`multiGet` returned, `none` standing for JSON `null`). -/
structure BackupWorld where
  store : Store
  backupFile : Option (List (String × Option JsVal))
deriving DecidableEq, Repr

/-- Object insertion for the backup JSON object: later entries of
`Object.fromEntries` overwrite earlier ones in place. -/
def objInsert : List (String × Option JsVal) → String → Option JsVal →
    List (String × Option JsVal)
  | [], k, v => [(k, v)]
  | kv :: rest, k, v =>
    if kv.1 = k then (k, v) :: rest else kv :: objInsert rest k v

/-- The object `Object.fromEntries(await AsyncStorage.multiGet(keys))` with
`keys = await AsyncStorage.getAllKeys()`. -/
def backupObject (s : Store) : List (String × Option JsVal) :=
  (multiGet s (getAllKeys s)).foldl (fun acc kv => objInsert acc kv.1 kv.2) []

/-- BackupService.createBackup: serialize the whole store into the backup
file and report success. -/
def createBackup (w : BackupWorld) : BackupWorld × Bool :=
  ({ w with backupFile := some (backupObject w.store) }, true)

/-- AsyncStorage.multiSet over `Object.entries` of the parsed backup: a
`null` value would make AsyncStorage throw (caught by `restoreBackup`), hence
the `Option` result. -/
def multiSet : Store → List (String × Option JsVal) → Option Store
  | s, [] => some s
  | s, (k, some v) :: rest => multiSet (setItem s k v) rest
  | _, (_, none) :: _ => none

/-- BackupService.restoreBackup: fail when the file is absent, otherwise
parse it and multiSet its entries back into the store. -/
def restoreBackup (w : BackupWorld) : BackupWorld × Bool :=
  match w.backupFile with
  | none => (w, false)
  | some entries =>
    match multiSet w.store entries with
    | some s2 => ({ w with store := s2 }, true)
    | none => (w, false)

/-! ### ReminderScreen notification model -/

/-- One OS-scheduled notification as registered through
`Notifications.scheduleNotificationAsync`: the opaque handle the call
returned, the content fields, and the trigger fields. -/
structure OSNotif where
  id : Nat
  title : String
  body : String
  hour : Nat
  minute : Nat
  second : Option Nat
  repeats : Bool
deriving DecidableEq, Repr

/-- World visible to the reminder flow: the persisted store, the
notifications currently scheduled with the OS, and the generator of fresh
opaque handles. -/
structure NotifWorld where
  store : Store
  osNotifs : List OSNotif
  nextId : Nat
deriving DecidableEq, Repr

/-- Observable events of one run of the scheduling routine, in program
order. -/
inductive Event where
  | cancelAll : Event
  | schedule : Nat → Event
  | persist : List Time → List Nat → Event
  | alert : String → String → Event
  | toast : String → Event
deriving DecidableEq, Repr

/-- JS `x || y` for an optional string: `undefined`, `null` and `""` are
falsy, so they all select `y`. -/
def jsOr (x : Option String) (y : String) : String :=
  match x with
  | some a => if a = "" then y else a
  | none => y

/-- Notification body template: `quote.text` joined by an em dash with
`quote.author || 'Unknown'` (identical in both revisions). -/
def quoteBody (q : Quote) : String :=
  q.text ++ " — " ++ jsOr q.author "Unknown"

/-- The value of `await AsyncStorage.getItem('currentUser')`: a string or
`null`. -/
def currentEmail (s : Store) : Option String :=
  match getItem s CURRENT_USER_KEY with
  | some (JsVal.str e) => some e
  | _ => none

/-- Interpolation of a nullable string into a template literal: JS prints
`null` as the text `"null"`. -/
def jsTemplate (x : Option String) : String :=
  x.getD "null"

/-- Preferences as loaded by `scheduleAllNotifications`:
`storedPrefs ? JSON.parse(storedPrefs).map(p => p.toLowerCase()) : []` read
from the key `preferences_${email}`. -/
def loadPreferences (s : Store) (email : String) : List String :=
  match getItem s ("preferences_" ++ email) with
  | some (JsVal.strList ps) => ps.map jsToLower
  | _ => []

/-- Quote-pool filter of the current ReminderScreen.js revision: the whole
list when no preference is set, otherwise
`preferences.includes(q.category?.toLowerCase?.().trim())`, where an absent
category yields `undefined` and never matches. -/
def filterQuotes (preferences : List String) (allQuotes : List Quote) :
    List Quote :=
  if preferences.length = 0 then allQuotes
  else allQuotes.filter (fun q =>
    match q.category with
    | some c => preferences.contains (jsTrim (jsToLower c))
    | none => false)

/-- Quote-pool filter of the older revision (src/unnamed/part_000):
`preferences.includes(q.category)` with the raw, un-lowercased category. -/
def filterQuotesOld (preferences : List String) (allQuotes : List Quote) :
    List Quote :=
  if preferences.length = 0 then allQuotes
  else allQuotes.filter (fun q =>
    match q.category with
    | some c => preferences.contains c
    | none => false)

/-- Random draws: one rational per loop iteration, standing for the values
of `Math.random()`. -/
abbrev RNG := Nat → ℚ

/-- Well-formedness of the random oracle: `Math.random()` returns values in
`[0, 1)`. -/
def RandOk (rng : RNG) : Prop :=
  ∀ i, 0 ≤ rng i ∧ rng i < 1

/-- `Math.floor(Math.random() * filteredQuotes.length)`. -/
def pickIndex (r : ℚ) (len : Nat) : Nat :=
  ⌊r * (len : ℚ)⌋₊

/-- `Notifications.scheduleNotificationAsync`: register the notification
with the OS and return the fresh handle. -/
def scheduleNotificationAsync (w : NotifWorld) (title body : String)
    (hour minute : Nat) (second : Option Nat) (repeats : Bool) :
    NotifWorld × Nat :=
  let id := w.nextId
  ({ w with
      osNotifs := w.osNotifs ++ [⟨id, title, body, hour, minute, second, repeats⟩],
      nextId := id + 1 }, id)

/-- Modelled from the spec: the body of `cancelAllNotifications` is absent
from the src/screens/ReminderScreen.js snapshot (only its call site
survives); per the spec the routine begins by cancelling the old
notifications, so every previously scheduled notification is removed. -/
def cancelAllNotifications (w : NotifWorld) : NotifWorld :=
  { w with osNotifs := [] }

/-- `Notifications.cancelAllScheduledNotificationsAsync`, the entire body of
the older revision's `cancelAllNotifications`. -/
def cancelAllScheduledNotificationsAsync (w : NotifWorld) : NotifWorld :=
  { w with osNotifs := [] }

/-- Modelled from the spec: the body of the two-argument `saveSettings` is
absent from the src/screens/ReminderScreen.js snapshot (only its call sites
survive); per the spec the routine persists the resulting
notification-handle list together with the times so they can be canceled or
edited later, modelled as writing the `reminderTimes` and `notificationIds`
keys. -/
def saveSettings (s : Store) (timeArray : List Time) (notifIds : List Nat) :
    Store :=
  setItem (setItem s "reminderTimes" (JsVal.timeList timeArray))
    "notificationIds" (JsVal.natList notifIds)

/-- The `for (let date of timeArray)` loop of the current revision: pick a
random quote, schedule a repeating notification at the hour and minute of
the date, collect the returned id.  `none` models the TypeError a
JS out-of-bounds index would raise when reading `.text` of `undefined`. -/
def scheduleLoop (rng : RNG) (filteredQuotes : List Quote) :
    NotifWorld → List Time → Nat → Option (NotifWorld × List Nat × List Event)
  | w, [], _ => some (w, [], [])
  | w, date :: rest, i =>
    match filteredQuotes.get? (pickIndex (rng i) filteredQuotes.length) with
    | none => none
    | some quote =>
      let p := scheduleNotificationAsync w "Daily Motivation" (quoteBody quote)
        date.hour date.minute none true
      match scheduleLoop rng filteredQuotes p.1 rest (i + 1) with
      | none => none
      | some (w', ids, evs) =>
        some (w', p.2 :: ids, Event.schedule p.2 :: evs)

/-- scheduleAllNotifications of the current src/screens/ReminderScreen.js
revision: cancel, load preferences and quotes, filter, alert-and-return on
an empty pool, otherwise schedule one notification per time and persist the
times with the collected notification ids. -/
def scheduleAllNotifications (rng : RNG) (w : NotifWorld)
    (timeArray : List Time) : Option (NotifWorld × List Event) :=
  let w1 := cancelAllNotifications w
  let email := jsTemplate (currentEmail w1.store)
  let preferences := loadPreferences w1.store email
  let allQuotes := getQuotes w1.store
  let filteredQuotes := filterQuotes preferences allQuotes
  if filteredQuotes.length = 0 then
    some (w1, [Event.cancelAll, Event.alert "No quotes found"
      "No quotes available for your selected categories."])
  else
    match scheduleLoop rng filteredQuotes w1 timeArray 0 with
    | none => none
    | some (w2, notifIds, evs) =>
      some ({ w2 with store := saveSettings w2.store timeArray notifIds },
        Event.cancelAll :: evs ++
          [Event.persist timeArray notifIds, Event.toast "Reminders scheduled!"])

/-- The scheduling loop of the older revision (src/unnamed/part_000): same
per-time registration, different title, an explicit `second: 0` trigger
field, and the returned id is discarded. -/
def scheduleLoopOld (rng : RNG) (filteredQuotes : List Quote) :
    NotifWorld → List Time → Nat → Option (NotifWorld × List Event)
  | w, [], _ => some (w, [])
  | w, date :: rest, i =>
    match filteredQuotes.get? (pickIndex (rng i) filteredQuotes.length) with
    | none => none
    | some randomQuote =>
      let p := scheduleNotificationAsync w "🌟 Daily Motivation"
        (quoteBody randomQuote) date.hour date.minute (some 0) true
      match scheduleLoopOld rng filteredQuotes p.1 rest (i + 1) with
      | none => none
      | some (w', evs) => some (w', Event.schedule p.2 :: evs)

/-- scheduleAllNotifications of the older revision (src/unnamed/part_000):
cancels wholesale via `cancelAllScheduledNotificationsAsync`, returns early
on a falsy `currentUser`, filters on the raw category, and never persists
any notification ids. -/
def scheduleAllNotificationsOld (rng : RNG) (w : NotifWorld)
    (timeArray : List Time) : Option (NotifWorld × List Event) :=
  let w1 := cancelAllScheduledNotificationsAsync w
  match currentEmail w1.store with
  | none => some (w1, [Event.cancelAll])
  | some email =>
    if email = "" then some (w1, [Event.cancelAll])
    else
      let preferences := loadPreferences w1.store email
      let allQuotes := getQuotes w1.store
      let filteredQuotes := filterQuotesOld preferences allQuotes
      if filteredQuotes.length = 0 then
        some (w1, [Event.cancelAll, Event.alert "No quotes found"
          "No quotes available for your selected categories."])
      else
        match scheduleLoopOld rng filteredQuotes w1 timeArray 0 with
        | none => none
        | some (w2, evs) =>
          some (w2, Event.cancelAll :: evs ++ [Event.toast "Reminders scheduled!"])

/-- The preference-filtered quote pool the current revision draws from,
computed from the store exactly as `scheduleAllNotifications` computes it. -/
def filteredPool (s : Store) : List Quote :=
  filterQuotes (loadPreferences s (jsTemplate (currentEmail s))) (getQuotes s)

/-! ### Basic store lemmas -/

theorem getItem_setItem_self (s : Store) (k : String) (v : JsVal) :
    getItem (setItem s k v) k = some v := by
  induction s with
  | nil => simp [setItem, getItem, List.find?]
  | cons kv rest ih =>
    by_cases h : kv.1 = k
    · simp [setItem, h, getItem, List.find?]
    · simp only [setItem, if_neg h]
      simpa [getItem, List.find?, h] using ih

theorem getItem_setItem_ne (s : Store) (k k' : String) (v : JsVal)
    (h : k' ≠ k) : getItem (setItem s k v) k' = getItem s k' := by
  induction s with
  | nil => simp [setItem, getItem, List.find?, Ne.symm h]
  | cons kv rest ih =>
    by_cases hk : kv.1 = k
    · subst hk
      simp [setItem, getItem, List.find?, Ne.symm h]
    · by_cases hk' : kv.1 = k'
      · have hstep : setItem (kv :: rest) k v = kv :: setItem rest k v := by
          simp [setItem, if_neg hk]
        rw [hstep]
        simp [getItem, List.find?, hk']
      · simp only [setItem, if_neg hk]
        simpa [getItem, List.find?, hk'] using ih

theorem getItem_isSome_of_mem_keys (s : Store) (k : String)
    (h : k ∈ getAllKeys s) : (getItem s k).isSome := by
  induction s with
  | nil => simp [getAllKeys] at h
  | cons kv rest ih =>
    by_cases hk : kv.1 = k
    · simp [getItem, List.find?, hk]
    · simp only [getAllKeys, List.map_cons, List.mem_cons] at h
      rcases h with h | h
      · exact absurd h.symm hk
      · simpa [getItem, List.find?, hk] using ih h

/-! ### Backup object lemmas -/

theorem self_mem_objInsert (l : List (String × Option JsVal)) (k : String)
    (v : Option JsVal) : (k, v) ∈ objInsert l k v := by
  induction l with
  | nil => simp [objInsert]
  | cons kv rest ih =>
    by_cases h : kv.1 = k
    · simp [objInsert, h]
    · simp [objInsert, h, ih]

theorem mem_objInsert_of_ne (l : List (String × Option JsVal))
    (kv : String × Option JsVal) (k : String) (v : Option JsVal)
    (hmem : kv ∈ l) (hne : kv.1 ≠ k) : kv ∈ objInsert l k v := by
  induction l with
  | nil => simp at hmem
  | cons hd rest ih =>
    by_cases h : hd.1 = k
    · rcases List.mem_cons.mp hmem with rfl | hmem'
      · exact absurd h hne
      · simp [objInsert, h, hmem']
    · rcases List.mem_cons.mp hmem with rfl | hmem'
      · simp [objInsert, h]
      · simp [objInsert, h, ih hmem']

theorem mem_of_mem_objInsert (l : List (String × Option JsVal))
    (kv : String × Option JsVal) (k : String) (v : Option JsVal)
    (h : kv ∈ objInsert l k v) : kv = (k, v) ∨ kv ∈ l := by
  induction l with
  | nil => simpa [objInsert] using h
  | cons hd rest ih =>
    by_cases hk : hd.1 = k
    · simp only [objInsert, if_pos hk] at h
      rcases List.mem_cons.mp h with rfl | h'
      · exact Or.inl rfl
      · exact Or.inr (List.mem_cons_of_mem _ h')
    · simp only [objInsert, if_neg hk] at h
      rcases List.mem_cons.mp h with rfl | h'
      · exact Or.inr (List.mem_cons_self _ _)
      · rcases ih h' with h'' | h''
        · exact Or.inl h''
        · exact Or.inr (List.mem_cons_of_mem _ h'')

theorem mem_foldl_objInsert (l : List (String × Option JsVal))
    (kv : String × Option JsVal)
    (acc : List (String × Option JsVal))
    (h : kv ∈ l.foldl (fun a p => objInsert a p.1 p.2) acc) :
    kv ∈ acc ∨ kv ∈ l := by
  induction l generalizing acc with
  | nil => exact Or.inl h
  | cons hd rest ih =>
    simp only [List.foldl_cons] at h
    rcases ih _ h with h' | h'
    · rcases mem_of_mem_objInsert _ _ _ _ h' with rfl | h''
      · exact Or.inr (List.mem_cons_self _ _)
      · exact Or.inl h''
    · exact Or.inr (List.mem_cons_of_mem _ h')

theorem mem_foldl_objInsert_of_mem (l : List (String × Option JsVal))
    (k : String) (v : Option JsVal)
    (hsame : ∀ kv ∈ l, kv.1 = k → kv.2 = v)
    (acc : List (String × Option JsVal))
    (hstart : (k, v) ∈ acc ∨ (k, v) ∈ l) :
    (k, v) ∈ l.foldl (fun a p => objInsert a p.1 p.2) acc := by
  induction l generalizing acc with
  | nil => simpa using hstart
  | cons hd rest ih =>
    simp only [List.foldl_cons]
    apply ih (fun kv hkv h => hsame kv (List.mem_cons_of_mem _ hkv) h)
    by_cases hk : hd.1 = k
    · have hv : hd.2 = v := hsame hd (List.mem_cons_self _ _) hk
      rcases hstart with h | h
      · left
        have : (k, v) = (hd.1, hd.2) := by rw [hk, hv]
        rw [this]
        exact self_mem_objInsert _ _ _
      · rcases List.mem_cons.mp h with heq | h'
        · left
          have : (k, v) = (hd.1, hd.2) := by rw [hk, hv]
          rw [this]
          exact self_mem_objInsert _ _ _
        · exact Or.inr h'
    · rcases hstart with h | h
      · exact Or.inl (mem_objInsert_of_ne _ _ _ _ h (fun he => hk he.symm))
      · rcases List.mem_cons.mp h with heq | h'
        · have : hd.1 = k := by rw [← heq]
          exact absurd this hk
        · exact Or.inr h'

theorem mem_multiGet (s : Store) (ks : List String)
    (kv : String × Option JsVal) (h : kv ∈ multiGet s ks) :
    kv.1 ∈ ks ∧ kv.2 = getItem s kv.1 := by
  simp only [multiGet, List.mem_map] at h
  obtain ⟨k, hk, rfl⟩ := h
  exact ⟨hk, rfl⟩

theorem mem_backupObject (s : Store) (kv : String × Option JsVal)
    (h : kv ∈ backupObject s) : kv.1 ∈ getAllKeys s ∧ kv.2 = getItem s kv.1 := by
  rcases mem_foldl_objInsert _ _ _ h with h' | h'
  · simp at h'
  · exact mem_multiGet _ _ _ h'

theorem backupObject_complete (s : Store) (k : String)
    (h : k ∈ getAllKeys s) : (k, getItem s k) ∈ backupObject s := by
  apply mem_foldl_objInsert_of_mem
  · intro kv hkv hk
    rcases mem_multiGet _ _ _ hkv with ⟨_, h2⟩
    rw [h2, hk]
  · right
    simp only [multiGet, List.mem_map]
    exact ⟨k, h, rfl⟩

theorem multiSet_consistent (entries : List (String × Option JsVal)) :
    ∀ s : Store, (∀ kv ∈ entries, kv.2 = getItem s kv.1 ∧ kv.2.isSome) →
    ∃ s', multiSet s entries = some s' ∧ ∀ k, getItem s' k = getItem s k := by
  induction entries with
  | nil =>
    intro s _
    exact ⟨s, rfl, fun _ => rfl⟩
  | cons hd rest ih =>
    intro s hcons
    obtain ⟨hval, hsome⟩ := hcons hd (List.mem_cons_self _ _)
    obtain ⟨v, hv⟩ := Option.isSome_iff_exists.mp hsome
    obtain ⟨k0, v0⟩ := hd
    simp only at hval hv
    subst hv
    have heq : ∀ k, getItem (setItem s k0 v) k = getItem s k := by
      intro k
      by_cases hk : k = k0
      · subst hk
        rw [getItem_setItem_self, hval]
      · exact getItem_setItem_ne _ _ _ _ hk
    obtain ⟨s', hs', hs'eq⟩ := ih (setItem s k0 v) (by
      intro kv hkv
      obtain ⟨h1, h2⟩ := hcons kv (List.mem_cons_of_mem _ hkv)
      exact ⟨by rw [h1, heq], h2⟩)
    exact ⟨s', hs', fun k => by rw [hs'eq k, heq k]⟩

/-! ### Helper lemmas for the key schema and favorites -/

theorem string_append_cancel_left {s e₁ e₂ : String} (h : s ++ e₁ = s ++ e₂) :
    e₁ = e₂ := by
  have hd : (s ++ e₁).data = (s ++ e₂).data := by rw [h]
  simp [String.data_append] at hd
  cases e₁; cases e₂
  simp only at hd ⊢
  exact congrArg String.mk hd

theorem favKey_injective {e₁ e₂ : String} (h : favKey e₁ = favKey e₂) :
    e₁ = e₂ :=
  string_append_cancel_left h

theorem getFavorites_setItem (s : Store) (email : String) (l : List Quote) :
    getFavorites (setItem s (favKey email) (JsVal.quoteList l)) email = l := by
  simp [getFavorites, getItem_setItem_self]

theorem addFavorite_eq (s : Store) (email : String) (q : Quote) :
    addFavorite s email q =
      if (getFavorites s email).any (fun x => x.id = q.id) then s
      else setItem s (favKey email)
        (JsVal.quoteList (getFavorites s email ++ [q])) := rfl

theorem getFavorites_addFavorite (s : Store) (email : String) (q : Quote) :
    getFavorites (addFavorite s email q) email =
      if (getFavorites s email).any (fun x => x.id = q.id) then getFavorites s email
      else getFavorites s email ++ [q] := by
  by_cases h : (getFavorites s email).any (fun x => x.id = q.id)
  · simp [addFavorite, h]
  · simp [addFavorite, h, getFavorites_setItem]

theorem getFavorites_removeFavorite (s : Store) (email : String) (qid : String) :
    getFavorites (removeFavorite s email qid) email =
      (getFavorites s email).filter (fun q => q.id ≠ qid) := by
  simp [removeFavorite, getFavorites_setItem]

/-! ### Claim theorems: storage layer -/

/-- C5: the quotes database is a thin serialization layer over the
`QUOTES_DATA` key of the flat key-value store: `getQuotes` after
`saveQuotes arr` returns `arr` structurally unchanged, and `getQuotes` on a
store in which the quotes key is absent returns the empty array. -/
theorem quotesDb_roundtrip (s : Store) (arr : List Quote) :
    getQuotes (saveQuotes s arr) = arr ∧
    (getItem s QUOTES_KEY = none → getQuotes s = []) := by
  constructor
  · simp [getQuotes, saveQuotes, getItem_setItem_self]
  · intro h
    simp [getQuotes, h]

theorem quotesDb_roundtrip_witness :
    getQuotes (saveQuotes [] [⟨"1", "Stay hungry", some "Jobs", some "mindset"⟩]) =
      [⟨"1", "Stay hungry", some "Jobs", some "mindset"⟩] ∧
    getQuotes ([] : Store) = [] :=
  ⟨(quotesDb_roundtrip [] _).1, (quotesDb_roundtrip [] []).2 rfl⟩

/-- C8: each storage subsystem writes only its own keys: `saveQuotes` only
`QUOTES_DATA`; `addFavorite` and `removeFavorite` for email `e` only
`favorites_e`; `saveUser` only `user_<email>` and `currentUser`.  In
particular favorites of any other user are untouched. -/
theorem subsystem_frames :
    (∀ (s : Store) (arr : List Quote) (k : String), k ≠ QUOTES_KEY →
      getItem (saveQuotes s arr) k = getItem s k) ∧
    (∀ (s : Store) (email : String) (q : Quote) (k : String), k ≠ favKey email →
      getItem (addFavorite s email q) k = getItem s k) ∧
    (∀ (s : Store) (email qid : String) (k : String), k ≠ favKey email →
      getItem (removeFavorite s email qid) k = getItem s k) ∧
    (∀ (s : Store) (u : UserRec) (k : String), k ≠ userKey u.email →
      k ≠ CURRENT_USER_KEY → getItem (saveUser s u) k = getItem s k) ∧
    (∀ (s : Store) (email : String) (q : Quote) (email' : String),
      email' ≠ email →
      getFavorites (addFavorite s email q) email' = getFavorites s email') ∧
    (∀ (s : Store) (email qid : String) (email' : String), email' ≠ email →
      getFavorites (removeFavorite s email qid) email' = getFavorites s email') := by
  have hfavne : ∀ {email' email : String}, email' ≠ email →
      favKey email' ≠ favKey email := by
    intro e' e hne h
    exact hne (favKey_injective h)
  refine ⟨?_, ?_, ?_, ?_, ?_, ?_⟩
  · intro s arr k hk
    exact getItem_setItem_ne _ _ _ _ hk
  · intro s email q k hk
    by_cases h : (getFavorites s email).any (fun x => x.id = q.id)
    · rw [addFavorite_eq, if_pos h]
    · rw [addFavorite_eq, if_neg h]
      exact getItem_setItem_ne _ _ _ _ hk
  · intro s email qid k hk
    exact getItem_setItem_ne _ _ _ _ hk
  · intro s u k hk1 hk2
    by_cases h : u.email = ""
    · simp [saveUser, h]
    · simp only [saveUser, h, if_false]
      rw [getItem_setItem_ne _ _ _ _ hk2]
      exact getItem_setItem_ne _ _ _ _ hk1
  · intro s email q email' hne
    by_cases h : (getFavorites s email).any (fun x => x.id = q.id)
    · rw [addFavorite_eq, if_pos h]
    · rw [addFavorite_eq, if_neg h]
      unfold getFavorites
      rw [getItem_setItem_ne _ _ _ _ (hfavne hne)]
  · intro s email qid email' hne
    unfold removeFavorite getFavorites
    rw [getItem_setItem_ne _ _ _ _ (hfavne hne)]

theorem subsystem_frames_witness :
    getItem (saveQuotes [(CURRENT_USER_KEY, JsVal.str "a")] []) CURRENT_USER_KEY =
      some (JsVal.str "a") ∧
    getItem (addFavorite [(QUOTES_KEY, JsVal.quoteList [])] "a"
      ⟨"1", "t", none, none⟩) QUOTES_KEY = some (JsVal.quoteList []) ∧
    getItem (removeFavorite [(QUOTES_KEY, JsVal.quoteList [])] "a" "1")
      QUOTES_KEY = some (JsVal.quoteList []) ∧
    getItem (saveUser [(QUOTES_KEY, JsVal.quoteList [])]
      ⟨"a", "pw", "n", "b"⟩) QUOTES_KEY = some (JsVal.quoteList []) ∧
    getFavorites (addFavorite [] "a" ⟨"1", "t", none, none⟩) "b" = [] ∧
    getFavorites (removeFavorite [] "a" "1") "b" = [] := by
  refine ⟨?_, ?_, ?_, ?_, ?_, ?_⟩
  · rw [subsystem_frames.1 _ _ _ (by decide)]
    decide
  · rw [subsystem_frames.2.1 _ _ _ _ (by decide)]
    decide
  · rw [subsystem_frames.2.2.1 _ _ _ _ (by decide)]
    decide
  · rw [subsystem_frames.2.2.2.1 _ _ _ (by decide) (by decide)]
    decide
  · rw [subsystem_frames.2.2.2.2.1 _ _ _ _ (by decide)]
    decide
  · rw [subsystem_frames.2.2.2.2.2 _ _ _ _ (by decide)]
    decide

/-- C9: the stored favorites list of any user never acquires two entries
with the same quote id: `addFavorite` with an already-present id leaves the
store unchanged, both operations preserve distinctness of ids, and
`removeFavorite` removes every entry carrying the given id. -/
theorem favorites_invariant :
    (∀ (s : Store) (email : String) (q : Quote),
      ((getFavorites s email).map Quote.id).Nodup →
      ((getFavorites (addFavorite s email q) email).map Quote.id).Nodup) ∧
    (∀ (s : Store) (email : String) (q : Quote),
      (getFavorites s email).any (fun x => x.id = q.id) →
      addFavorite s email q = s) ∧
    (∀ (s : Store) (email qid : String),
      ((getFavorites s email).map Quote.id).Nodup →
      ((getFavorites (removeFavorite s email qid) email).map Quote.id).Nodup) ∧
    (∀ (s : Store) (email qid : String) (x : Quote),
      x ∈ getFavorites (removeFavorite s email qid) email → x.id ≠ qid) := by
  refine ⟨?_, ?_, ?_, ?_⟩
  · intro s email q hnd
    rw [getFavorites_addFavorite]
    by_cases h : (getFavorites s email).any (fun x => x.id = q.id)
    · rw [if_pos h]
      exact hnd
    · rw [if_neg h]
      simp only [List.map_append, List.map_cons, List.map_nil]
      rw [List.nodup_append]
      refine ⟨hnd, List.nodup_singleton _, ?_⟩
      intro a ha hb
      simp only [List.mem_singleton] at hb
      subst hb
      simp only [List.any_eq_true, decide_eq_true_eq] at h
      simp only [List.mem_map] at ha
      obtain ⟨x, hx, hxa⟩ := ha
      exact h ⟨x, hx, hxa⟩
  · intro s email q h
    simp [addFavorite, h]
  · intro s email qid hnd
    rw [getFavorites_removeFavorite]
    have hsub : List.Sublist (((getFavorites s email).filter
        (fun q => q.id ≠ qid)).map Quote.id)
        ((getFavorites s email).map Quote.id) :=
      List.Sublist.map _ (List.filter_sublist _)
    exact List.Nodup.sublist hsub hnd
  · intro s email qid x hx
    rw [getFavorites_removeFavorite] at hx
    have := List.of_mem_filter hx
    simpa using this

theorem favorites_invariant_witness :
    ((getFavorites (addFavorite [(favKey "a", JsVal.quoteList
      [⟨"1", "t", none, none⟩])] "a" ⟨"2", "u", none, none⟩) "a").map
      Quote.id).Nodup ∧
    addFavorite [(favKey "a", JsVal.quoteList [⟨"1", "t", none, none⟩])] "a"
      ⟨"1", "v", none, none⟩ =
      [(favKey "a", JsVal.quoteList [⟨"1", "t", none, none⟩])] ∧
    ((getFavorites (removeFavorite [(favKey "a", JsVal.quoteList
      [⟨"1", "t", none, none⟩])] "a" "1") "a").map Quote.id).Nodup ∧
    (∀ x ∈ getFavorites (removeFavorite [(favKey "a", JsVal.quoteList
      [⟨"1", "t", none, none⟩])] "a" "1") "a", x.id ≠ "1") :=
  ⟨favorites_invariant.1 _ "a" _ (by decide),
   favorites_invariant.2.1 _ "a" _ (by decide),
   favorites_invariant.2.2.1 _ "a" "1" (by decide),
   fun x hx => favorites_invariant.2.2.2 _ "a" "1" x hx⟩

/-- C10: `mergeQuotes` keeps the existing quotes unchanged in their original
order and appends exactly those new quotes whose trimmed text is not among
the trimmed texts of the existing quotes, so no appended quote duplicates a
pre-existing trimmed text (new quotes are only checked against the existing
list, not against each other). -/
theorem mergeQuotes_spec (s : Store) (newQuotes : List Quote) :
    getQuotes (mergeQuotes s newQuotes) =
      getQuotes s ++ newQuotes.filter (fun q =>
        ¬ ((getQuotes s).map (fun p => jsTrim p.text)).contains (jsTrim q.text)) ∧
    (getQuotes (mergeQuotes s newQuotes)).take (getQuotes s).length =
      getQuotes s ∧
    (∀ q ∈ (getQuotes (mergeQuotes s newQuotes)).drop (getQuotes s).length,
      ∀ p ∈ getQuotes s, jsTrim q.text ≠ jsTrim p.text) := by
  have heq : getQuotes (mergeQuotes s newQuotes) =
      getQuotes s ++ newQuotes.filter (fun q =>
        ¬ ((getQuotes s).map (fun p => jsTrim p.text)).contains (jsTrim q.text)) := by
    simp [mergeQuotes, getQuotes, saveQuotes, getItem_setItem_self]
  refine ⟨heq, ?_, ?_⟩
  · rw [heq, List.take_left]
  · intro q hq p hp
    rw [heq, List.drop_left] at hq
    have hmem := List.of_mem_filter hq
    intro hcontra
    simp [List.contains] at hmem
    exact hmem p hp hcontra.symm

theorem mergeQuotes_spec_witness :
    getQuotes (mergeQuotes [(QUOTES_KEY, JsVal.quoteList
        [⟨"1", "Stay hungry", some "Jobs", some "mindset"⟩])]
      [⟨"2", " Stay hungry ", none, none⟩, ⟨"3", "New", none, none⟩]) =
      [⟨"1", "Stay hungry", some "Jobs", some "mindset"⟩,
       ⟨"3", "New", none, none⟩] ∧
    jsTrim "New" ≠ jsTrim "Stay hungry" := by
  have h := mergeQuotes_spec [(QUOTES_KEY, JsVal.quoteList
      [⟨"1", "Stay hungry", some "Jobs", some "mindset"⟩])]
    [⟨"2", " Stay hungry ", none, none⟩, ⟨"3", "New", none, none⟩]
  refine ⟨?_, ?_⟩
  · rw [h.1]
    decide
  · exact h.2.2 ⟨"3", "New", none, none⟩ (by decide)
      ⟨"1", "Stay hungry", some "Jobs", some "mindset"⟩ (by decide)

/-- C4: backup export followed by import is a round trip over the flat
key-value store: `createBackup` records every key-value pair currently in
the store in the backup file as one JSON object and returns true,
`restoreBackup` reads that file, writes every recorded pair back and returns
true, and afterwards every key that existed at backup time (indeed every
key) is mapped to its backed-up value. -/
theorem backup_restore_roundtrip (s : Store)
    (f : Option (List (String × Option JsVal))) :
    (createBackup ⟨s, f⟩).2 = true ∧
    (∀ k ∈ getAllKeys s, (k, getItem s k) ∈ backupObject s) ∧
    (restoreBackup (createBackup ⟨s, f⟩).1).2 = true ∧
    (∀ k, getItem ((restoreBackup (createBackup ⟨s, f⟩).1).1).store k =
      getItem s k) := by
  have hcons : ∀ kv ∈ backupObject s, kv.2 = getItem s kv.1 ∧ kv.2.isSome := by
    intro kv hkv
    obtain ⟨h1, h2⟩ := mem_backupObject s kv hkv
    refine ⟨h2, ?_⟩
    rw [h2]
    exact getItem_isSome_of_mem_keys s kv.1 h1
  obtain ⟨s', hs', heq⟩ := multiSet_consistent (backupObject s) s hcons
  refine ⟨rfl, backupObject_complete s, ?_, ?_⟩
  · simp [restoreBackup, createBackup, hs']
  · intro k
    simp [restoreBackup, createBackup, hs', heq k]

theorem backup_restore_roundtrip_witness :
    (createBackup ⟨[("k", JsVal.str "v")], none⟩).2 = true ∧
    ("k", getItem [("k", JsVal.str "v")] "k") ∈
      backupObject [("k", JsVal.str "v")] ∧
    (restoreBackup (createBackup ⟨[("k", JsVal.str "v")], none⟩).1).2 = true ∧
    getItem ((restoreBackup
      (createBackup ⟨[("k", JsVal.str "v")], none⟩).1).1).store "k" =
      getItem [("k", JsVal.str "v")] "k" := by
  have h := backup_restore_roundtrip [("k", JsVal.str "v")] none
  exact ⟨h.1, h.2.1 "k" (by decide), h.2.2.1, h.2.2.2 "k"⟩

/-! ### Claim theorems: the reminder quote pool (C3) -/

/-- Store of the C3 counterexample: user `u` is logged in, the stored
preference list is `["hope"]`, and the only quote has category `"hope "`
with a trailing space. -/
def poolCexStore : Store :=
  [(CURRENT_USER_KEY, JsVal.str "u"),
   ("preferences_" ++ "u", JsVal.strList ["hope"]),
   (QUOTES_KEY, JsVal.quoteList [⟨"1", "t", none, some "hope "⟩])]

/-- C3 counterexample: the claim says the pool contains exactly the quotes
whose category, compared case-insensitively, is a member of the lowercased
preference list.  Here the pool produced by the code contains the quote with
category `"hope "`, yet that category (lowercased, it stays `"hope "`)
equals no member of the non-empty lowercased preference list `["hope"]`:
the code additionally trims the category before the membership test. -/
theorem pool_membership_counterexample :
    loadPreferences poolCexStore (jsTemplate (currentEmail poolCexStore)) ≠ [] ∧
    (⟨"1", "t", none, some "hope "⟩ : Quote) ∈ filteredPool poolCexStore ∧
    (∀ p ∈ loadPreferences poolCexStore (jsTemplate (currentEmail poolCexStore)),
      jsToLower "hope " ≠ p) := by
  decide

/-- C3 amended: for every store, if the (lowercased) stored preference list
is empty the pool equals the entire stored quote list, and otherwise the
pool contains exactly those quotes whose category string, lowercased and
then trimmed, is a member of the lowercased preference list (quotes without
a category are excluded).  This is the current ReminderScreen.js revision;
the older revision in src/unnamed/part_000 compares the raw category
instead. -/
theorem pool_membership (s : Store) :
    (loadPreferences s (jsTemplate (currentEmail s)) = [] →
      filteredPool s = getQuotes s) ∧
    (loadPreferences s (jsTemplate (currentEmail s)) ≠ [] →
      ∀ q : Quote, q ∈ filteredPool s ↔ q ∈ getQuotes s ∧
        ∃ c, q.category = some c ∧
          jsTrim (jsToLower c) ∈ loadPreferences s (jsTemplate (currentEmail s))) := by
  constructor
  · intro h
    simp [filteredPool, filterQuotes, h]
  · intro h q
    have hlen : (loadPreferences s (jsTemplate (currentEmail s))).length ≠ 0 := by
      simpa [List.length_eq_zero] using h
    simp only [filteredPool, filterQuotes, hlen, if_false, List.mem_filter]
    constructor
    · rintro ⟨hmem, hcat⟩
      refine ⟨hmem, ?_⟩
      match hq : q.category with
      | some c =>
        rw [hq] at hcat
        simp only [decide_eq_true_eq] at hcat
        exact ⟨c, rfl, by simpa [List.elem_iff] using hcat⟩
      | none =>
        rw [hq] at hcat
        simp at hcat
    · rintro ⟨hmem, c, hc, hin⟩
      refine ⟨hmem, ?_⟩
      rw [hc]
      simpa [List.elem_iff] using hin

theorem pool_membership_witness :
    filteredPool [(QUOTES_KEY,
      JsVal.quoteList [⟨"1", "t", none, some "life"⟩])] =
      [⟨"1", "t", none, some "life"⟩] ∧
    ((⟨"1", "t", none, some "Hope "⟩ : Quote) ∈ filteredPool poolCexStore ↔
      (⟨"1", "t", none, some "Hope "⟩ : Quote) ∈ getQuotes poolCexStore ∧
      ∃ c, (some "Hope " : Option String) = some c ∧
        jsTrim (jsToLower c) ∈
          loadPreferences poolCexStore (jsTemplate (currentEmail poolCexStore))) :=
  ⟨(pool_membership _).1 (by decide),
   (pool_membership poolCexStore).2 (by decide) _⟩

/-! ### Scheduling lemmas -/

theorem pickIndex_lt (r : ℚ) (h0 : 0 ≤ r) (h1 : r < 1) (len : Nat)
    (hlen : 0 < len) : pickIndex r len < len := by
  have hcast : (0 : ℚ) < (len : ℚ) := by exact_mod_cast hlen
  have hmul : r * (len : ℚ) < (len : ℚ) := by
    calc r * (len : ℚ) < 1 * (len : ℚ) := mul_lt_mul_of_pos_right h1 hcast
    _ = (len : ℚ) := one_mul _
  have h0' : (0 : ℚ) ≤ r * (len : ℚ) := mul_nonneg h0 (le_of_lt hcast)
  rw [pickIndex]
  exact (Nat.floor_lt h0').mpr hmul

theorem pickIndex_zero (len : Nat) : pickIndex 0 len = 0 := by
  simp [pickIndex]

theorem scheduleLoop_spec (rng : RNG) (hr : RandOk rng) (pool : List Quote)
    (hpool : pool ≠ []) (times : List Time) :
    ∀ (w : NotifWorld) (i : Nat),
    ∃ w' ids newNotifs,
      scheduleLoop rng pool w times i = some (w', ids, ids.map Event.schedule) ∧
      ids.length = times.length ∧
      w'.store = w.store ∧
      w'.osNotifs = w.osNotifs ++ newNotifs ∧
      newNotifs.length = times.length ∧
      (∀ j, j < times.length →
        ∃ q t n, pool.get? (pickIndex (rng (i + j)) pool.length) = some q ∧
          times.get? j = some t ∧ newNotifs.get? j = some n ∧
          n.title = "Daily Motivation" ∧ n.body = quoteBody q ∧
          n.hour = t.hour ∧ n.minute = t.minute ∧ n.repeats = true) := by
  induction times with
  | nil =>
    intro w i
    refine ⟨w, [], [], rfl, rfl, rfl, by simp, rfl, ?_⟩
    intro j hj
    exact absurd hj (by simp)
  | cons date rest ih =>
    intro w i
    have hlen : 0 < pool.length := List.length_pos.mpr hpool
    have hidx : pickIndex (rng i) pool.length < pool.length :=
      pickIndex_lt _ (hr i).1 (hr i).2 _ hlen
    obtain ⟨q, hq⟩ : ∃ q, pool.get? (pickIndex (rng i) pool.length) = some q :=
      ⟨_, List.get?_eq_get hidx⟩
    obtain ⟨w', ids, newNotifs, heq, hlen', hstore, hos, hnlen, hprops⟩ :=
      ih (scheduleNotificationAsync w "Daily Motivation" (quoteBody q)
        date.hour date.minute none true).1 (i + 1)
    refine ⟨w', w.nextId :: ids,
      ⟨w.nextId, "Daily Motivation", quoteBody q, date.hour, date.minute,
        none, true⟩ :: newNotifs, ?_, ?_, ?_, ?_, ?_, ?_⟩
    · simp only [scheduleLoop, hq, heq]
      rfl
    · simpa using hlen'
    · exact hstore
    · rw [hos]
      simp [scheduleNotificationAsync]
    · simpa using hnlen
    · intro j hj
      cases j with
      | zero =>
        exact ⟨q, date, _, by simpa using hq, rfl, rfl, rfl, rfl, rfl, rfl, rfl⟩
      | succ j =>
        obtain ⟨q', t, n, h1, h2, h3, h4, h5, h6, h7, h8⟩ :=
          hprops j (by simpa using hj)
        refine ⟨q', t, n, ?_, by simpa using h2, by simpa using h3,
          h4, h5, h6, h7, h8⟩
        have harith : i + 1 + j = i + (j + 1) := by omega
        rw [← harith]
        exact h1

theorem scheduleAllNotifications_eq (rng : RNG) (w : NotifWorld)
    (timeArray : List Time) :
    scheduleAllNotifications rng w timeArray =
      if (filteredPool w.store).length = 0 then
        some (cancelAllNotifications w, [Event.cancelAll,
          Event.alert "No quotes found"
            "No quotes available for your selected categories."])
      else
        match scheduleLoop rng (filteredPool w.store)
            (cancelAllNotifications w) timeArray 0 with
        | none => none
        | some (w2, notifIds, evs) =>
          some ({ w2 with store := saveSettings w2.store timeArray notifIds },
            Event.cancelAll :: evs ++
              [Event.persist timeArray notifIds,
               Event.toast "Reminders scheduled!"]) := rfl

/-! ### Fixtures for concrete runs -/

/-- Random oracle that always draws 0. -/
def constZeroRng : RNG := fun _ => 0

theorem constZeroRng_ok : RandOk constZeroRng :=
  fun _ => ⟨le_refl 0, by show (0 : ℚ) < 1; norm_num⟩

def qFix : Quote := ⟨"1", "Stay hungry", some "Jobs", some "mindset"⟩

/-- One stored quote, nobody logged in, no notification scheduled yet. -/
def schedFixWorld : NotifWorld :=
  { store := [(QUOTES_KEY, JsVal.quoteList [qFix])], osNotifs := [], nextId := 0 }

/-- One stored quote and a logged-in user `u` with no stored preferences. -/
def schedC2World : NotifWorld :=
  { store := [(CURRENT_USER_KEY, JsVal.str "u"),
              (QUOTES_KEY, JsVal.quoteList [qFix])],
    osNotifs := [], nextId := 0 }

/-- Empty quote database but one previously scheduled notification. -/
def schedC6World : NotifWorld :=
  { store := [], osNotifs := [⟨5, "old", "b", 1, 2, none, true⟩], nextId := 6 }

/-! ### Claim theorems: scheduling -/

/-- C1: for every time array, when the preference-filtered pool is
non-empty, `scheduleAllNotifications` first cancels the previously
scheduled notifications, then registers exactly one repeating notification
per element of the time array — the i-th carrying the i-th time's hour and
minute and the body of a quote picked from the pool by the i-th random draw
— and finally persists the returned handle list together with the times;
the number of registered notifications and of persisted handles both equal
the length of the time array, and no other store key changes. -/
theorem scheduleAllNotifications_spec (rng : RNG) (hr : RandOk rng)
    (w : NotifWorld) (timeArray : List Time)
    (hpool : filteredPool w.store ≠ []) :
    ∃ w' notifIds,
      scheduleAllNotifications rng w timeArray =
        some (w', Event.cancelAll :: notifIds.map Event.schedule ++
          [Event.persist timeArray notifIds,
           Event.toast "Reminders scheduled!"]) ∧
      notifIds.length = timeArray.length ∧
      w'.osNotifs.length = timeArray.length ∧
      getItem w'.store "reminderTimes" = some (JsVal.timeList timeArray) ∧
      getItem w'.store "notificationIds" = some (JsVal.natList notifIds) ∧
      (∀ k, k ≠ "reminderTimes" → k ≠ "notificationIds" →
        getItem w'.store k = getItem w.store k) ∧
      (∀ j, j < timeArray.length →
        ∃ q t n, (filteredPool w.store).get?
            (pickIndex (rng j) (filteredPool w.store).length) = some q ∧
          q ∈ filteredPool w.store ∧
          timeArray.get? j = some t ∧ w'.osNotifs.get? j = some n ∧
          n.body = quoteBody q ∧ n.hour = t.hour ∧ n.minute = t.minute ∧
          n.repeats = true) := by
  have hlen0 : ¬ (filteredPool w.store).length = 0 := by
    simpa [List.length_eq_zero] using hpool
  obtain ⟨w', ids, newNotifs, hloop, hidlen, hstore, hos, hnlen, hprops⟩ :=
    scheduleLoop_spec rng hr (filteredPool w.store) hpool timeArray
      (cancelAllNotifications w) 0
  have hosnew : w'.osNotifs = newNotifs := by
    simpa [cancelAllNotifications] using hos
  have hstore' : w'.store = w.store := hstore
  have hne : ("reminderTimes" : String) ≠ "notificationIds" := by decide
  refine ⟨{ w' with store := saveSettings w'.store timeArray ids }, ids,
    ?_, hidlen, ?_, ?_, ?_, ?_, ?_⟩
  · rw [scheduleAllNotifications_eq, if_neg hlen0, hloop]
  · simp [hosnew, hnlen]
  · simp only [saveSettings]
    rw [getItem_setItem_ne _ _ _ _ hne, getItem_setItem_self]
  · simp only [saveSettings]
    rw [getItem_setItem_self]
  · intro k hk1 hk2
    simp only [saveSettings]
    rw [getItem_setItem_ne _ _ _ _ hk2, getItem_setItem_ne _ _ _ _ hk1,
      hstore']
  · intro j hj
    obtain ⟨q, t, n, h1, h2, h3, _, h5, h6, h7, h8⟩ := hprops j hj
    refine ⟨q, t, n, by simpa using h1,
      List.mem_iff_get?.mpr ⟨_, by simpa using h1⟩, h2, ?_, h5, h6, h7, h8⟩
    rw [hosnew]
    simpa using h3

theorem scheduleAllNotifications_spec_witness :
    ∃ w' notifIds,
      scheduleAllNotifications constZeroRng schedFixWorld [⟨8, 30⟩] =
        some (w', Event.cancelAll :: notifIds.map Event.schedule ++
          [Event.persist [⟨8, 30⟩] notifIds,
           Event.toast "Reminders scheduled!"]) ∧
      notifIds.length = [(⟨8, 30⟩ : Time)].length ∧
      w'.osNotifs.length = [(⟨8, 30⟩ : Time)].length ∧
      getItem w'.store "reminderTimes" = some (JsVal.timeList [⟨8, 30⟩]) ∧
      getItem w'.store "notificationIds" = some (JsVal.natList notifIds) ∧
      (∀ k, k ≠ "reminderTimes" → k ≠ "notificationIds" →
        getItem w'.store k = getItem schedFixWorld.store k) ∧
      (∀ j, j < [(⟨8, 30⟩ : Time)].length →
        ∃ q t n, (filteredPool schedFixWorld.store).get?
            (pickIndex (constZeroRng j)
              (filteredPool schedFixWorld.store).length) = some q ∧
          q ∈ filteredPool schedFixWorld.store ∧
          [(⟨8, 30⟩ : Time)].get? j = some t ∧ w'.osNotifs.get? j = some n ∧
          n.body = quoteBody q ∧ n.hour = t.hour ∧ n.minute = t.minute ∧
          n.repeats = true) :=
  scheduleAllNotifications_spec constZeroRng constZeroRng_ok schedFixWorld
    [⟨8, 30⟩] (by decide)

/-- C6: when the preference-filtered pool is empty,
`scheduleAllNotifications` raises the "No quotes found" alert and returns
with no notification registered and the store (hence the persisted reminder
times and notification-id list) untouched — but the cancellation has
already emptied the set of previously scheduled notifications, so they are
lost on this error path: the operation is not atomic. -/
theorem emptyPool_alert (rng : RNG) (w : NotifWorld) (timeArray : List Time)
    (hpool : filteredPool w.store = []) :
    scheduleAllNotifications rng w timeArray =
      some ({ w with osNotifs := [] },
        [Event.cancelAll, Event.alert "No quotes found"
          "No quotes available for your selected categories."]) := by
  rw [scheduleAllNotifications_eq, if_pos (by rw [hpool]; rfl)]
  rfl

theorem emptyPool_alert_witness :
    scheduleAllNotifications constZeroRng schedC6World [⟨8, 30⟩] =
      some ({ schedC6World with osNotifs := [] },
        [Event.cancelAll, Event.alert "No quotes found"
          "No quotes available for your selected categories."]) :=
  emptyPool_alert constZeroRng schedC6World [⟨8, 30⟩] (by decide)

/-- C7: for a non-empty filtered pool and random draws in `[0, 1)`, the
index `Math.floor(Math.random() * filteredQuotes.length)` is always within
bounds, the scheduling loop therefore never faults, every scheduled body is
`quoteBody` of an actual pool element, and a missing author field renders as
`Unknown`. -/
theorem randomIndex_safe (rng : RNG) (hr : RandOk rng)
    (filteredQuotes : List Quote) (hne : filteredQuotes ≠ []) :
    (∀ i, pickIndex (rng i) filteredQuotes.length < filteredQuotes.length) ∧
    (∀ (w : NotifWorld) (times : List Time) (i : Nat),
      ∃ w' ids evs,
        scheduleLoop rng filteredQuotes w times i = some (w', ids, evs) ∧
        ∀ n ∈ w'.osNotifs, n ∈ w.osNotifs ∨
          ∃ q ∈ filteredQuotes, n.body = quoteBody q) ∧
    (∀ q : Quote, q.author = none →
      quoteBody q = q.text ++ " — " ++ "Unknown") := by
  have hlen : 0 < filteredQuotes.length := List.length_pos.mpr hne
  refine ⟨fun i => pickIndex_lt _ (hr i).1 (hr i).2 _ hlen, ?_, ?_⟩
  · intro w times i
    obtain ⟨w', ids, newNotifs, hloop, _, _, hos, hnlen, hprops⟩ :=
      scheduleLoop_spec rng hr filteredQuotes hne times w i
    refine ⟨w', ids, ids.map Event.schedule, hloop, ?_⟩
    intro n hn
    rw [hos] at hn
    rcases List.mem_append.mp hn with h | h
    · exact Or.inl h
    · right
      obtain ⟨j, hj⟩ := List.mem_iff_get?.mp h
      have hjlt : j < times.length := by
        rw [← hnlen]
        obtain ⟨hlt, _⟩ := List.get?_eq_some.mp hj
        exact hlt
      obtain ⟨q, t, n', h1, h2, h3, _, h5, _, _, _⟩ := hprops j hjlt
      have hn' : n' = n := by
        rw [hj] at h3
        exact (Option.some.inj h3).symm
      subst hn'
      exact ⟨q, List.mem_iff_get?.mpr ⟨_, h1⟩, h5⟩
  · intro q hq
    simp [quoteBody, jsOr, hq]

theorem randomIndex_safe_witness :
    pickIndex (constZeroRng 0) 1 < 1 ∧
    quoteBody ⟨"1", "t", none, none⟩ = "t" ++ " — " ++ "Unknown" := by
  have h := randomIndex_safe constZeroRng constZeroRng_ok
    [⟨"1", "t", none, none⟩] (by decide)
  exact ⟨by simpa using h.1 0, h.2.2 _ rfl⟩

/-- C2: the two revisions of the scheduling routine are observably
different: on a state with one logged-in user and one stored quote, the
current ReminderScreen.js revision persists the collected notification-id
list under `notificationIds`, while the older part_000 revision discards
the ids (cancelling only wholesale), so the persisted store after
scheduling differs between the two revisions. -/
theorem revisions_divergence :
    ∃ pN pO,
      scheduleAllNotifications constZeroRng schedC2World [⟨8, 30⟩] = some pN ∧
      scheduleAllNotificationsOld constZeroRng schedC2World [⟨8, 30⟩] = some pO ∧
      getItem pN.1.store "notificationIds" = some (JsVal.natList [0]) ∧
      getItem pO.1.store "notificationIds" = none ∧
      pN.1.store ≠ pO.1.store := by
  have hN : scheduleAllNotifications constZeroRng schedC2World [⟨8, 30⟩] =
      some ({ store := saveSettings schedC2World.store [⟨8, 30⟩] [0],
              osNotifs := [⟨0, "Daily Motivation", quoteBody qFix, 8, 30,
                none, true⟩],
              nextId := 1 },
            [Event.cancelAll, Event.schedule 0, Event.persist [⟨8, 30⟩] [0],
             Event.toast "Reminders scheduled!"]) := by
    simp [scheduleAllNotifications, cancelAllNotifications, schedC2World,
      constZeroRng, jsTemplate, currentEmail, loadPreferences, getQuotes,
      getItem, setItem, QUOTES_KEY, CURRENT_USER_KEY, List.find?, filterQuotes,
      scheduleLoop, pickIndex_zero, scheduleNotificationAsync, saveSettings,
      qFix]
  have hO : scheduleAllNotificationsOld constZeroRng schedC2World [⟨8, 30⟩] =
      some ({ store := schedC2World.store,
              osNotifs := [⟨0, "🌟 Daily Motivation", quoteBody qFix, 8, 30,
                some 0, true⟩],
              nextId := 1 },
            [Event.cancelAll, Event.schedule 0,
             Event.toast "Reminders scheduled!"]) := by
    simp [scheduleAllNotificationsOld, cancelAllScheduledNotificationsAsync,
      schedC2World, constZeroRng, currentEmail, loadPreferences, getQuotes,
      getItem, setItem, QUOTES_KEY, CURRENT_USER_KEY, List.find?,
      filterQuotesOld, scheduleLoopOld, pickIndex_zero,
      scheduleNotificationAsync, qFix]
  refine ⟨_, _, hN, hO, ?_, ?_, ?_⟩ <;> decide

end Motivation
